import Mathlib

/-!
# Verification of the solana-exporter version-compliance core

This file gives a shallow embedding, in Lean 4, of the version-compliance
core of the `solana-exporter` repository:

* the dot-separated version comparator `compareVersions`
  (`cmd/solana-exporter/collector.go`),
* the minimum-required-version authority client with its 6-hour cache
  (`pkg/api/client.go`, current-epoch variant with epoch matching),
* the compliance evaluators `collectNodeIsOutdated` / `collectNodeNeedsUpdate`
  and the orchestrating `Collect` pass (`cmd/solana-exporter/collector.go`).

Go slices become lists, Go `int` becomes `Int` (with the 64-bit saturation of
`strconv.Atoi` made explicit where it matters), wall-clock instants become
integers, HTTP/RPC calls become explicit inputs describing their outcome, and
the mutable cache becomes explicit state passing.
-/

/-! ## Version comparison (`compareVersions` in collector.go)

`compareVersions` splits both strings on `"."` (Go `strings.Split`) and parses
each component with `strconv.Atoi`, ignoring the parse error, so a component
that fails to parse contributes `0` and a numeric component outside the 64-bit
signed range contributes the saturated bound (Go `strconv.ParseInt` returns the
clamped value together with `ErrRange`, and the error is discarded). -/

def int64Max : Int := 9223372036854775807

def int64Min : Int := -9223372036854775808

/-- The natural number denoted by a list of decimal digit characters. -/
def digitsVal (ds : List Char) : Nat :=
  ds.foldl (fun n c => n * 10 + (c.toNat - 48)) 0

/-- Go `strings.Split(s, ".")` on the character sequence: the maximal runs of
characters between occurrences of `'.'`, empty runs included. -/
def splitOnDot : List Char → List (List Char)
  | [] => [[]]
  | c :: cs =>
    if c = '.' then [] :: splitOnDot cs
    else
      match splitOnDot cs with
      | [] => [[c]]
      | p :: ps => (c :: p) :: ps

/-- The value Go's `aVal, _ = strconv.Atoi(s)` leaves in `aVal`: an optional
sign followed by decimal digits, saturating at the 64-bit signed bounds;
anything else (empty, stray characters, bare sign) yields `0`. -/
def atoiVal (s : List Char) : Int :=
  let (neg, digits) :=
    match s with
    | '-' :: rest => (true, rest)
    | '+' :: rest => (false, rest)
    | _ => (false, s)
  if digits.isEmpty then 0
  else if digits.all Char.isDigit then
    let v : Int := if neg then -(digitsVal digits : Int) else (digitsVal digits : Int)
    if v > int64Max then int64Max
    else if v < int64Min then int64Min
    else v
  else 0

/-- The sequence of `(aVal, bVal)` pairs the loop of `compareVersions` computes:
Go iterates `i` from `0` below `max(len aParts, len bParts)`, parsing the
component at position `i` when present and using `0` when missing. -/
def padZipVals (f : List Char → Int) : List (List Char) → List (List Char) → List (Int × Int)
  | [], bs => bs.map (fun b => (0, f b))
  | a :: as, [] => (f a, 0) :: padZipVals f as []
  | a :: as, b :: bs => (f a, f b) :: padZipVals f as bs

/-- The comparison loop body: return at the first position whose two values
differ, `0` when every position ties. -/
def cmpVals : List (Int × Int) → Int
  | [] => 0
  | (x, y) :: rest => if x < y then -1 else if y < x then 1 else cmpVals rest

/-- Function `compareVersions` from `cmd/solana-exporter/collector.go`. -/
def compareVersions (a b : String) : Int :=
  cmpVals (padZipVals atoiVal (splitOnDot a.data) (splitOnDot b.data))

/-- The component value interpreted as claim C2 words it ("parses the component
at each position as an integer treating non-numeric or missing components
as 0"): an unbounded integer, with no 64-bit saturation.  Written from the
spec's words, to be compared against `atoiVal` from the source. -/
def atoiValByClaim (s : List Char) : Int :=
  let (neg, digits) :=
    match s with
    | '-' :: rest => (true, rest)
    | '+' :: rest => (false, rest)
    | _ => (false, s)
  if digits.isEmpty then 0
  else if digits.all Char.isDigit then
    if neg then -(digitsVal digits : Int) else (digitsVal digits : Int)
  else 0

/-- The comparator as claim C2 words it (unbounded integer components). -/
def compareVersionsByClaim (a b : String) : Int :=
  cmpVals (padZipVals atoiValByClaim (splitOnDot a.data) (splitOnDot b.data))

/-! ## The authority client (`pkg/api` — `GetMinRequiredVersion`)

The embedding follows the epoch-matching variant of `GetMinRequiredVersion`
(the one exercised by `TestClient_GetMinRequiredVersion` with a mock RPC
client).  The HTTP request and the `GetEpochInfo` RPC call become explicit
inputs describing their outcomes; wall-clock instants are integers, with the
zero `time.Time` value modelled as `none`. -/

/-- One entry of the authority's `data` array (`pkg/api/types.go`). -/
structure AuthorityRecord where
  cluster : String
  epoch : Int
  agave_min_version : String
  agave_max_version : Option String
  firedancer_max_version : Option String
  firedancer_min_version : String
  inherited_from_prev_epoch : Bool
deriving DecidableEq

/-- The client's cache entry: `agaveVersion`, `firedancerVersion`, `lastCheck`
and `epoch` fields of `Client.cache`.  `lastCheck = none` models the zero
`time.Time`. -/
structure Cache where
  agaveVersion : String
  firedancerVersion : String
  lastCheck : Option Int
  epoch : Int
deriving DecidableEq

/-- The freshly constructed client's cache (`NewClient`): zero values. -/
def Cache.empty : Cache :=
  { agaveVersion := "", firedancerVersion := "", lastCheck := none, epoch := 0 }

/-- The guard `!c.cache.lastCheck.IsZero() && time.Since(c.cache.lastCheck) < c.cacheTimeout`. -/
def cacheValid (cache : Cache) (now : Int) (cacheTimeout : Int) : Bool :=
  match cache.lastCheck with
  | none => false
  | some t => now - t < cacheTimeout

/-- The error cases of `GetMinRequiredVersion`, in the order its code can
produce them. -/
inductive ResolveError where
  | requestError
  | fetchError
  | decodeError
  | noDataError
  | epochLookupError
  | missingFieldError
deriving DecidableEq

/-- The outcome of the HTTP interaction with the authority endpoint:
request-creation failure, transport failure, or a response body together with
the result of JSON-decoding it (`none` = malformed JSON). -/
inductive FetchOutcome where
  | requestFailed
  | transportFailed
  | response (decoded : Option (List AuthorityRecord))
deriving DecidableEq

/-- The five values Go's `GetMinRequiredVersion` returns:
`(agaveMinVersion, cluster, epoch, firedancerMinVersion, error)`. -/
structure GoReturn where
  agave : String
  cluster : String
  epoch : Int
  firedancer : String
  err : Option ResolveError
deriving DecidableEq

/-- The `return "", cluster, 0, "", err` shape shared by every error path. -/
def errReturn (cluster : String) (e : ResolveError) : GoReturn :=
  { agave := "", cluster := cluster, epoch := 0, firedancer := "", err := some e }

/-- The epoch-matching selection of `GetMinRequiredVersion`: the first record
whose `Epoch` equals the current epoch, else `stats.Data[0]`. -/
def selectCurrentRecord (first : AuthorityRecord) (records : List AuthorityRecord)
    (currentEpoch : Int) : AuthorityRecord :=
  (records.find? (fun r => r.epoch == currentEpoch)).getD first

/-- Method `GetMinRequiredVersion` (epoch-matching variant): explicit state passing of
the cache, with the fetch outcome and the `GetEpochInfo` result (`none` = RPC
failure) as inputs. -/
def GetMinRequiredVersion (cacheTimeout : Int) (cache : Cache) (now : Int) (cluster : String)
    (outcome : FetchOutcome) (epochInfo : Option Int) : GoReturn × Cache :=
  if cacheValid cache now cacheTimeout then
    ({ agave := cache.agaveVersion, cluster := cluster, epoch := cache.epoch,
       firedancer := cache.firedancerVersion, err := none }, cache)
  else
    match outcome with
    | .requestFailed => (errReturn cluster .requestError, cache)
    | .transportFailed => (errReturn cluster .fetchError, cache)
    | .response none => (errReturn cluster .decodeError, cache)
    | .response (some records) =>
      match records with
      | [] => (errReturn cluster .noDataError, cache)
      | first :: _ =>
        match epochInfo with
        | none => (errReturn cluster .epochLookupError, cache)
        | some currentEpoch =>
          let entry := selectCurrentRecord first records currentEpoch
          if entry.agave_min_version = "" then (errReturn cluster .missingFieldError, cache)
          else
            ({ agave := entry.agave_min_version, cluster := cluster, epoch := entry.epoch,
               firedancer := entry.firedancer_min_version, err := none },
             { agaveVersion := entry.agave_min_version,
               firedancerVersion := entry.firedancer_min_version,
               lastCheck := some now, epoch := entry.epoch })

/-- Modelled from the spec: `GetNextEpochMinRequiredVersion` itself is not
among the provided source files — only its tests
(`TestClient_GetNextEpochMinRequiredVersion`), its mock (`pkg/api/mock.go`)
and its caller (`collectNodeNeedsUpdate`) are.  Per spec §4.1, `kind = next`
selects the record whose epoch equals `currentEpoch + 1`, falls back to the
record whose epoch equals the current epoch, and then to the first record. -/
def selectNextRecord (first : AuthorityRecord) (records : List AuthorityRecord)
    (currentEpoch : Int) : AuthorityRecord :=
  match records.find? (fun r => r.epoch == currentEpoch + 1) with
  | some r => r
  | none => (records.find? (fun r => r.epoch == currentEpoch)).getD first

/-- Modelled from the spec: the `kind = next` resolve, whose source is not
among the provided files.  Per spec §4.1 it runs the same pipeline as the
current-kind resolve (its own TTL-checked cache entry, the same fetch,
decode, no-data, epoch-lookup and missing-primary-version failure cases) with
the `kind = next` epoch-matching policy of `selectNextRecord`. -/
def GetNextEpochMinRequiredVersion (cacheTimeout : Int) (cache : Cache) (now : Int)
    (cluster : String) (outcome : FetchOutcome) (epochInfo : Option Int) : GoReturn × Cache :=
  if cacheValid cache now cacheTimeout then
    ({ agave := cache.agaveVersion, cluster := cluster, epoch := cache.epoch,
       firedancer := cache.firedancerVersion, err := none }, cache)
  else
    match outcome with
    | .requestFailed => (errReturn cluster .requestError, cache)
    | .transportFailed => (errReturn cluster .fetchError, cache)
    | .response none => (errReturn cluster .decodeError, cache)
    | .response (some records) =>
      match records with
      | [] => (errReturn cluster .noDataError, cache)
      | first :: _ =>
        match epochInfo with
        | none => (errReturn cluster .epochLookupError, cache)
        | some currentEpoch =>
          let entry := selectNextRecord first records currentEpoch
          if entry.agave_min_version = "" then (errReturn cluster .missingFieldError, cache)
          else
            ({ agave := entry.agave_min_version, cluster := cluster, epoch := entry.epoch,
               firedancer := entry.firedancer_min_version, err := none },
             { agaveVersion := entry.agave_min_version,
               firedancerVersion := entry.firedancer_min_version,
               lastCheck := some now, epoch := entry.epoch })

/-! ## The collector (`cmd/solana-exporter/collector.go`)

Each sub-collection's RPC/API interactions become fields of `PassInputs`
describing their outcomes for one pass (`Except String α`: the `String` is the
Go error).  Helpers that live outside the provided sources are represented by
their outcomes: `ExtractHealthAndNumSlotsBehind` (spec §6: health is decoded
externally into healthy/unhealthy + slots-behind) by the two decoded results,
`GetClusterFromGenesisHash` by its result, and `FetchBalances` by the address
list it yields (Go map iteration becomes list order).  Emitting to the
Prometheus channel becomes appending to a list of `Emission`s; an
`Emission.sample` records the metric family and its label values, an
`Emission.invalid` records the family of a `NewInvalidMetric` together with
the error it carries. -/

/-- One item sent to the metrics channel: a (valid) const-metric sample with
its label values, or an invalid-sample marker carrying an error. -/
inductive Emission where
  | sample (family : String) (labels : List String)
  | invalid (family : String) (err : String)
deriving DecidableEq

/-- One element of `GetVoteAccounts` output (current or delinquent). -/
structure VoteAccount where
  votePubkey : String
  nodePubkey : String
  activatedStake : Int
  lastVote : Int
  rootSlot : Int
deriving DecidableEq

/-- The `current`/`delinquent` pair returned by `GetVoteAccounts`. -/
structure VoteAccounts where
  current : List VoteAccount
  delinquent : List VoteAccount
deriving DecidableEq

/-- The `ExporterConfig` fields the collector reads. -/
structure ExporterConfig where
  lightMode : Bool
  nodeKeys : List String
  comprehensiveVoteAccountTracking : Bool
  activeIdentity : String
deriving DecidableEq

/-- The guard `slices.Contains(c.config.NodeKeys, account.NodePubkey) ||
c.config.ComprehensiveVoteAccountTracking`. -/
def trackedAccount (config : ExporterConfig) (a : VoteAccount) : Bool :=
  config.nodeKeys.contains a.nodePubkey || config.comprehensiveVoteAccountTracking

/-- The per-pass inputs of `Collect`: the outcome of every RPC/API call the
pass makes, step by step.  The compliance steps issue their own `GetVersion`,
`GetGenesisHash`, `GetClusterFromGenesisHash` and required-version calls, so
they have their own fields. -/
structure PassInputs where
  isHealthyRes : Except String Bool
  slotsBehindRes : Except String Int
  minLedgerRes : Except String Int
  firstBlockRes : Except String Int
  voteRes : Except String VoteAccounts
  versionRes : Except String String
  fdProbeOk : Bool
  identityRes : Except String String
  balancesRes : Except String (List String)
  genesisRes : Except String String
  clusterRes : Except String String
  minVerRes : Except String GoReturn
  outdatedVersionRes : Except String String
  outdatedGenesisRes : Except String String
  outdatedClusterRes : Except String String
  outdatedMinVerRes : Except String GoReturn
  needsVersionRes : Except String String
  needsGenesisRes : Except String String
  needsClusterRes : Except String String
  needsNextVerRes : Except String GoReturn

/-- Method `collectHealth`: each of the two decoded results emits a sample on success
and an invalid marker on failure. -/
def collectHealth (isHealthyRes : Except String Bool) (slotsBehindRes : Except String Int) :
    List Emission :=
  (match isHealthyRes with
   | .error e => [.invalid "solana_node_is_healthy" e]
   | .ok _ => [.sample "solana_node_is_healthy" []]) ++
  (match slotsBehindRes with
   | .error e => [.invalid "solana_node_num_slots_behind" e]
   | .ok _ => [.sample "solana_node_num_slots_behind" []])

/-- Method `collectMinimumLedgerSlot`. -/
def collectMinimumLedgerSlot (res : Except String Int) : List Emission :=
  match res with
  | .error e => [.invalid "solana_node_minimum_ledger_slot" e]
  | .ok _ => [.sample "solana_node_minimum_ledger_slot" []]

/-- Method `collectFirstAvailableBlock`. -/
def collectFirstAvailableBlock (res : Except String Int) : List Emission :=
  match res with
  | .error e => [.invalid "solana_node_first_available_block" e]
  | .ok _ => [.sample "solana_node_first_available_block" []]

/-- The three per-validator samples of the first `collectVoteAccounts` loop. -/
def validatorSamples (a : VoteAccount) : List Emission :=
  [.sample "solana_validator_active_stake" [a.votePubkey, a.nodePubkey],
   .sample "solana_validator_last_vote" [a.votePubkey, a.nodePubkey],
   .sample "solana_validator_root_slot" [a.votePubkey, a.nodePubkey]]

/-- Method `collectVoteAccounts`: skipped entirely in light mode; on RPC failure one
invalid marker per descriptor the step owns; on success the per-validator
samples, the delinquency samples, and the cluster aggregates. -/
def collectVoteAccounts (config : ExporterConfig) (res : Except String VoteAccounts) :
    List Emission :=
  if config.lightMode then []
  else
    match res with
    | .error e =>
      [.invalid "solana_validator_active_stake" e,
       .invalid "solana_cluster_active_stake" e,
       .invalid "solana_validator_last_vote" e,
       .invalid "solana_cluster_last_vote" e,
       .invalid "solana_validator_root_slot" e,
       .invalid "solana_cluster_root_slot" e,
       .invalid "solana_validator_delinquent" e,
       .invalid "solana_cluster_validator_count" e]
    | .ok va =>
      (((va.current ++ va.delinquent).filter (trackedAccount config)).map validatorSamples).flatten
      ++ (va.current.filter (trackedAccount config)).map
          (fun a => .sample "solana_validator_delinquent" [a.votePubkey, a.nodePubkey])
      ++ (va.delinquent.filter (trackedAccount config)).map
          (fun a => .sample "solana_validator_delinquent" [a.votePubkey, a.nodePubkey])
      ++ [.sample "solana_cluster_active_stake" [],
          .sample "solana_cluster_last_vote" [],
          .sample "solana_cluster_root_slot" [],
          .sample "solana_cluster_validator_count" ["current"],
          .sample "solana_cluster_validator_count" ["delinquent"]]

/-- The inline version + variant-detection step of `Collect`: the
`is_firedancer` label of the `solana_node_version` sample reflects this pass's
probe alone. -/
def collectVersionInline (versionRes : Except String String) (fdProbeOk : Bool) :
    List Emission :=
  match versionRes with
  | .error e => [.invalid "solana_node_version" e]
  | .ok v => [.sample "solana_node_version" [v, if fdProbeOk then "1" else "0"]]

/-- The `c.isFiredancer` field after the variant-detection step: set to `true`
when `GetVersion` succeeded and the firedancer metrics probe returned status
200; otherwise left at its previous value (the field is never reset). -/
def updatedIsFiredancer (prev : Bool) (versionRes : Except String String)
    (fdProbeOk : Bool) : Bool :=
  match versionRes with
  | .ok _ => if fdProbeOk then true else prev
  | .error _ => prev

/-- Method `collectIdentity`: `NodeIsActive` (only when an active identity is
configured) then `NodeIdentity`. -/
def collectIdentity (config : ExporterConfig) (res : Except String String) : List Emission :=
  match res with
  | .error e => [.invalid "solana_node_identity" e]
  | .ok identity =>
    (if config.activeIdentity ≠ "" then [.sample "solana_node_is_active" [identity]] else [])
    ++ [.sample "solana_node_identity" [identity]]

/-- Method `collectBalances`: skipped in light mode; one invalid marker on failure,
one sample per fetched address on success. -/
def collectBalances (config : ExporterConfig) (res : Except String (List String)) :
    List Emission :=
  if config.lightMode then []
  else
    match res with
    | .error e => [.invalid "solana_account_balance" e]
    | .ok addresses => addresses.map (fun a => .sample "solana_account_balance" [a])

/-- The inline foundation-min-required-version step of `Collect`: a failure of
`GetGenesisHash`, of `GetClusterFromGenesisHash` or of the cache resolve all
flow into `minVerErr` and emit one invalid marker; success emits the sample
with the resolve's own cluster and epoch in the labels. -/
def collectFoundationMinVersion (genesisRes clusterRes : Except String String)
    (minVerRes : Except String GoReturn) : List Emission :=
  match genesisRes with
  | .error e => [.invalid "solana_foundation_min_required_version" e]
  | .ok _ =>
    match clusterRes with
    | .error e => [.invalid "solana_foundation_min_required_version" e]
    | .ok _ =>
      match minVerRes with
      | .error e => [.invalid "solana_foundation_min_required_version" e]
      | .ok r =>
        [.sample "solana_foundation_min_required_version"
          [r.agave, r.firedancer, r.cluster, toString r.epoch]]

/-- The boolean sample either compliance evaluator produces. -/
structure ComplianceSample where
  value : Bool
  isFiredancer : Bool
  version : String
  requiredVersion : String
  cluster : String
  epoch : Int
deriving DecidableEq

/-- The cluster string the compliance steps compute: `"mainnet-beta"` when
`GetGenesisHash` fails; otherwise `GetClusterFromGenesisHash`'s value, which
is the empty string when that lookup fails (its error is only logged). -/
def complianceCluster (genesisRes clusterRes : Except String String) : String :=
  match genesisRes with
  | .error _ => "mainnet-beta"
  | .ok _ =>
    match clusterRes with
    | .ok c => c
    | .error _ => ""

/-- Method `collectNodeIsOutdated`: answer `none` when the step emits nothing (version fetch
or cache resolve failed), otherwise the sample it emits. -/
def collectNodeIsOutdated (isFiredancer : Bool) (versionRes genesisRes clusterRes :
    Except String String) (minVerRes : Except String GoReturn) : Option ComplianceSample :=
  match versionRes with
  | .error _ => none
  | .ok version =>
    match minVerRes with
    | .error _ => none
    | .ok r =>
      let requiredVersion := if isFiredancer then r.firedancer else r.agave
      some { value := decide (compareVersions version requiredVersion < 0),
             isFiredancer := isFiredancer,
             version := version,
             requiredVersion := requiredVersion,
             cluster := complianceCluster genesisRes clusterRes,
             epoch := r.epoch }

/-- Method `collectNodeNeedsUpdate`: same shape as `collectNodeIsOutdated`, against
the next-epoch resolve. -/
def collectNodeNeedsUpdate (isFiredancer : Bool) (versionRes genesisRes clusterRes :
    Except String String) (nextVerRes : Except String GoReturn) : Option ComplianceSample :=
  match versionRes with
  | .error _ => none
  | .ok version =>
    match nextVerRes with
    | .error _ => none
    | .ok r =>
      let requiredVersion := if isFiredancer then r.firedancer else r.agave
      some { value := decide (compareVersions version requiredVersion < 0),
             isFiredancer := isFiredancer,
             version := version,
             requiredVersion := requiredVersion,
             cluster := complianceCluster genesisRes clusterRes,
             epoch := r.epoch }

/-- The channel items of a compliance evaluator: nothing on failure, one
sample (labels in `MustNewConstMetric` order) on success. -/
def complianceEmissions (family : String) (s : Option ComplianceSample) : List Emission :=
  match s with
  | none => []
  | some s =>
    [.sample family
      [(if s.isFiredancer then "1" else "0"), s.version, s.requiredVersion,
       s.cluster, toString s.epoch]]

/-- Method `SolanaCollector.Collect`: one pass over the fixed step order, threading
the persistent `isFiredancer` field (input: its value at pass start; output:
its value at pass end, read by the two compliance steps). -/
def Collect (config : ExporterConfig) (isFiredancer0 : Bool) (i : PassInputs) :
    List Emission × Bool :=
  let fd := updatedIsFiredancer isFiredancer0 i.versionRes i.fdProbeOk
  (collectHealth i.isHealthyRes i.slotsBehindRes
   ++ collectMinimumLedgerSlot i.minLedgerRes
   ++ collectFirstAvailableBlock i.firstBlockRes
   ++ collectVoteAccounts config i.voteRes
   ++ collectVersionInline i.versionRes i.fdProbeOk
   ++ collectIdentity config i.identityRes
   ++ collectBalances config i.balancesRes
   ++ collectFoundationMinVersion i.genesisRes i.clusterRes i.minVerRes
   ++ complianceEmissions "solana_node_is_outdated"
        (collectNodeIsOutdated fd i.outdatedVersionRes i.outdatedGenesisRes
          i.outdatedClusterRes i.outdatedMinVerRes)
   ++ complianceEmissions "solana_node_needs_update"
        (collectNodeNeedsUpdate fd i.needsVersionRes i.needsGenesisRes
          i.needsClusterRes i.needsNextVerRes),
   fd)

/-! ## Helper lemmas -/

theorem epochFind_some_of_mem (l : List AuthorityRecord) (target : Int)
    (h : ∃ r ∈ l, r.epoch = target) :
    ∃ m, l.find? (fun r => r.epoch == target) = some m ∧ m.epoch = target := by
  cases hf : l.find? (fun r => r.epoch == target) with
  | none =>
    obtain ⟨r, hr, hrt⟩ := h
    have := List.find?_eq_none.mp hf r hr
    simp [hrt] at this
  | some m =>
    refine ⟨m, rfl, ?_⟩
    have := List.find?_some hf
    simpa using this

theorem epochFind_none_of_not_mem (l : List AuthorityRecord) (target : Int)
    (h : ∀ r ∈ l, r.epoch ≠ target) :
    l.find? (fun r => r.epoch == target) = none := by
  cases hf : l.find? (fun r => r.epoch == target) with
  | none => rfl
  | some m =>
    have hmem := List.mem_of_find?_eq_some hf
    have := List.find?_some hf
    simp at this
    exact absurd this (h m hmem)

/-- Cache-hit behaviour shared by the claim theorems: when the entry is valid,
the resolve returns the cached values for the requested cluster, leaves the
cache unchanged, and never looks at the fetch or epoch inputs. -/
theorem getMin_cacheHit (cacheTimeout : Int) (cache : Cache) (now : Int) (cluster : String)
    (outcome : FetchOutcome) (epochInfo : Option Int)
    (hvalid : cacheValid cache now cacheTimeout = true) :
    GetMinRequiredVersion cacheTimeout cache now cluster outcome epochInfo =
      ({ agave := cache.agaveVersion, cluster := cluster, epoch := cache.epoch,
         firedancer := cache.firedancerVersion, err := none }, cache) := by
  simp [GetMinRequiredVersion, hvalid]

/-- On a successful resolve the returned values and the resulting cache entry
agree field by field. -/
theorem getMin_success_cache (cacheTimeout : Int) (cache : Cache) (now : Int) (cluster : String)
    (outcome : FetchOutcome) (epochInfo : Option Int) (r : GoReturn) (cache1 : Cache)
    (heq : GetMinRequiredVersion cacheTimeout cache now cluster outcome epochInfo = (r, cache1))
    (hok : r.err = none) :
    cache1.agaveVersion = r.agave ∧ cache1.firedancerVersion = r.firedancer ∧
      cache1.epoch = r.epoch := by
  by_cases hvalid : cacheValid cache now cacheTimeout
  · rw [getMin_cacheHit _ _ _ _ _ _ hvalid] at heq
    obtain ⟨h1, h2⟩ := Prod.mk.injEq .. ▸ heq
    subst h2
    simp [← h1]
  · simp only [Bool.not_eq_true] at hvalid
    cases outcome with
    | requestFailed => simp [GetMinRequiredVersion, hvalid, errReturn] at heq; simp [← heq.1] at hok
    | transportFailed => simp [GetMinRequiredVersion, hvalid, errReturn] at heq; simp [← heq.1] at hok
    | response d =>
      cases d with
      | none => simp [GetMinRequiredVersion, hvalid, errReturn] at heq; simp [← heq.1] at hok
      | some records =>
        cases records with
        | nil => simp [GetMinRequiredVersion, hvalid, errReturn] at heq; simp [← heq.1] at hok
        | cons first rest =>
          cases epochInfo with
          | none => simp [GetMinRequiredVersion, hvalid, errReturn] at heq; simp [← heq.1] at hok
          | some currentEpoch =>
            by_cases hempty : (selectCurrentRecord first (first :: rest) currentEpoch).agave_min_version = ""
            · simp [GetMinRequiredVersion, hvalid, hempty, errReturn] at heq
              simp [← heq.1] at hok
            · simp [GetMinRequiredVersion, hvalid, hempty] at heq
              obtain ⟨h1, h2⟩ := heq
              simp [← h1, ← h2]

/-! ## Concrete data for witnesses (the records of `client_test.go`) -/

/-- The epoch-796 mainnet record of `TestClient_GetMinRequiredVersion`. -/
def record796 : AuthorityRecord :=
  { cluster := "mainnet-beta", epoch := 796, agave_min_version := "2.2.14",
    agave_max_version := none, firedancer_max_version := none,
    firedancer_min_version := "0.503.20214", inherited_from_prev_epoch := true }

/-- The epoch-797 mainnet record of `TestClient_GetMinRequiredVersion`. -/
def record797 : AuthorityRecord :=
  { cluster := "mainnet-beta", epoch := 797, agave_min_version := "2.2.15",
    agave_max_version := none, firedancer_max_version := none,
    firedancer_min_version := "0.503.20215", inherited_from_prev_epoch := false }

/-- The epoch-798 mainnet record of `TestClient_GetNextEpochMinRequiredVersion`. -/
def record798 : AuthorityRecord :=
  { cluster := "mainnet-beta", epoch := 798, agave_min_version := "2.2.16",
    agave_max_version := none, firedancer_max_version := none,
    firedancer_min_version := "0.503.20216", inherited_from_prev_epoch := false }

/-- Constant `CacheTimeout` (6 hours) in nanoseconds, the unit of Go `time.Duration`. -/
def CacheTimeout : Int := 21600000000000

/-! ## Claim C1 -/

/-- C1: on a cache miss, the current-kind resolve selects the record whose
`epoch` equals the current epoch; if no record matches it falls back to the
first record in authority order; and the returned values — including the
resolved epoch — are the selected record's own. -/
theorem GetMinRequiredVersion_selects_current_epoch
    (cacheTimeout : Int) (cache : Cache) (now : Int) (cluster : String)
    (first : AuthorityRecord) (rest : List AuthorityRecord) (currentEpoch : Int)
    (entry : AuthorityRecord)
    (hmiss : cacheValid cache now cacheTimeout = false)
    (hentry : selectCurrentRecord first (first :: rest) currentEpoch = entry)
    (hversion : entry.agave_min_version ≠ "") :
    (GetMinRequiredVersion cacheTimeout cache now cluster
        (.response (some (first :: rest))) (some currentEpoch)).1 =
      { agave := entry.agave_min_version, cluster := cluster, epoch := entry.epoch,
        firedancer := entry.firedancer_min_version, err := none }
    ∧ ((∃ r ∈ first :: rest, r.epoch = currentEpoch) → entry.epoch = currentEpoch)
    ∧ ((∀ r ∈ first :: rest, r.epoch ≠ currentEpoch) → entry = first) := by
  refine ⟨?_, ?_, ?_⟩
  · simp [GetMinRequiredVersion, hmiss, hentry, hversion]
  · intro hex
    obtain ⟨m, hm, hmt⟩ := epochFind_some_of_mem _ _ hex
    rw [← hentry]
    simp [selectCurrentRecord, hm, hmt]
  · intro hall
    have hnone := epochFind_none_of_not_mem _ _ hall
    rw [← hentry]
    simp [selectCurrentRecord, hnone]

/-- C1 witness: authority records for epochs 796 and 797 with current
epoch 797 resolve to the epoch-797 record's versions with resolved
epoch 797. -/
theorem GetMinRequiredVersion_selects_current_epoch_witness :
    (GetMinRequiredVersion CacheTimeout Cache.empty 0 "mainnet-beta"
        (.response (some [record796, record797])) (some 797)).1 =
      { agave := "2.2.15", cluster := "mainnet-beta", epoch := 797,
        firedancer := "0.503.20215", err := none } := by
  have h := GetMinRequiredVersion_selects_current_epoch CacheTimeout Cache.empty 0
    "mainnet-beta" record796 [record797] 797 record797 (by decide) (by decide) (by decide)
  exact h.1

/-! ## Claim C6 -/

/-- C6: while a previously fetched entry is still valid (non-zero fetch time
within the 6-hour TTL), a resolve call performs no fetch — its result does not
depend on the fetch or epoch-lookup inputs — and returns exactly the cached
primary version, alternate version and epoch. -/
theorem GetMinRequiredVersion_cache_hit
    (cacheTimeout : Int) (cache : Cache) (now fetchedAt : Int) (cluster : String)
    (outcome : FetchOutcome) (epochInfo : Option Int)
    (hfetched : cache.lastCheck = some fetchedAt)
    (hfresh : now - fetchedAt < cacheTimeout) :
    GetMinRequiredVersion cacheTimeout cache now cluster outcome epochInfo =
      ({ agave := cache.agaveVersion, cluster := cluster, epoch := cache.epoch,
         firedancer := cache.firedancerVersion, err := none }, cache) := by
  apply getMin_cacheHit
  simp [cacheValid, hfetched, hfresh]

/-- C6 witness: a concrete valid entry is served unchanged even when the
network would fail. -/
theorem GetMinRequiredVersion_cache_hit_witness :
    GetMinRequiredVersion CacheTimeout
        { agaveVersion := "2.2.15", firedancerVersion := "0.503.20215",
          lastCheck := some 100, epoch := 797 } 200 "mainnet-beta"
        .transportFailed none =
      ({ agave := "2.2.15", cluster := "mainnet-beta", epoch := 797,
         firedancer := "0.503.20215", err := none },
       { agaveVersion := "2.2.15", firedancerVersion := "0.503.20215",
         lastCheck := some 100, epoch := 797 }) :=
  GetMinRequiredVersion_cache_hit CacheTimeout _ 200 100 "mainnet-beta"
    .transportFailed none rfl (by decide)

/-! ## Claim C7 -/

/-- C7: a resolve call that fails — for any of its failure cases — leaves the
cache exactly as it was; only a fully successful resolve mutates it. -/
theorem GetMinRequiredVersion_failure_preserves_cache
    (cacheTimeout : Int) (cache : Cache) (now : Int) (cluster : String)
    (outcome : FetchOutcome) (epochInfo : Option Int) (e : ResolveError)
    (herr : (GetMinRequiredVersion cacheTimeout cache now cluster outcome epochInfo).1.err
      = some e) :
    (GetMinRequiredVersion cacheTimeout cache now cluster outcome epochInfo).2 = cache := by
  by_cases hvalid : cacheValid cache now cacheTimeout
  · simp [GetMinRequiredVersion, hvalid]
  · simp only [Bool.not_eq_true] at hvalid
    cases outcome with
    | requestFailed => simp [GetMinRequiredVersion, hvalid]
    | transportFailed => simp [GetMinRequiredVersion, hvalid]
    | response d =>
      cases d with
      | none => simp [GetMinRequiredVersion, hvalid]
      | some records =>
        cases records with
        | nil => simp [GetMinRequiredVersion, hvalid]
        | cons first rest =>
          cases epochInfo with
          | none => simp [GetMinRequiredVersion, hvalid]
          | some currentEpoch =>
            by_cases hempty :
              (selectCurrentRecord first (first :: rest) currentEpoch).agave_min_version = ""
            · simp [GetMinRequiredVersion, hvalid, hempty]
            · simp [GetMinRequiredVersion, hvalid, hempty] at herr

/-- C7 witness: an empty authority response (`NoDataError`) leaves a concrete
previously populated, expired entry untouched. -/
theorem GetMinRequiredVersion_failure_preserves_cache_witness :
    (GetMinRequiredVersion CacheTimeout
        { agaveVersion := "2.2.14", firedancerVersion := "0.503.20214",
          lastCheck := some 0, epoch := 796 } 99999999999999 "mainnet-beta"
        (.response (some [])) (some 797)).2 =
      { agaveVersion := "2.2.14", firedancerVersion := "0.503.20214",
        lastCheck := some 0, epoch := 796 } :=
  GetMinRequiredVersion_failure_preserves_cache CacheTimeout _ 99999999999999
    "mainnet-beta" (.response (some [])) (some 797) .noDataError (by decide)

/-! ## Claim C8 -/

/-- C8: on a cache miss with a response body, the resolve fails with the
decode error exactly when the body is malformed; given decoded records, it
fails with the no-data error exactly when the list is empty; given a nonempty
list and a current epoch, it fails with the missing-field error exactly when
the selected record's primary minimum version is empty; and an empty
alternate-implementation minimum version is never rejected — it is returned
as-is. -/
theorem GetMinRequiredVersion_error_taxonomy
    (cacheTimeout : Int) (cache : Cache) (now : Int) (cluster : String)
    (hmiss : cacheValid cache now cacheTimeout = false) :
    (∀ decoded epochInfo,
       ((GetMinRequiredVersion cacheTimeout cache now cluster
           (.response decoded) epochInfo).1.err = some .decodeError)
         ↔ decoded = none)
  ∧ (∀ records epochInfo,
       ((GetMinRequiredVersion cacheTimeout cache now cluster
           (.response (some records)) epochInfo).1.err = some .noDataError)
         ↔ records = [])
  ∧ (∀ first rest currentEpoch,
       ((GetMinRequiredVersion cacheTimeout cache now cluster
           (.response (some (first :: rest))) (some currentEpoch)).1.err
           = some .missingFieldError)
         ↔ (selectCurrentRecord first (first :: rest) currentEpoch).agave_min_version = "")
  ∧ (∀ first rest currentEpoch,
       (selectCurrentRecord first (first :: rest) currentEpoch).agave_min_version ≠ "" →
       (GetMinRequiredVersion cacheTimeout cache now cluster
           (.response (some (first :: rest))) (some currentEpoch)).1.err = none
       ∧ (GetMinRequiredVersion cacheTimeout cache now cluster
           (.response (some (first :: rest))) (some currentEpoch)).1.firedancer
         = (selectCurrentRecord first (first :: rest) currentEpoch).firedancer_min_version) := by
  refine ⟨?_, ?_, ?_, ?_⟩
  · intro decoded epochInfo
    cases decoded with
    | none => simp [GetMinRequiredVersion, hmiss, errReturn]
    | some records =>
      simp only [Option.some.injEq, reduceCtorEq, iff_false]
      cases records with
      | nil => simp [GetMinRequiredVersion, hmiss, errReturn]
      | cons first rest =>
        cases epochInfo with
        | none => simp [GetMinRequiredVersion, hmiss, errReturn]
        | some currentEpoch =>
          by_cases hempty :
            (selectCurrentRecord first (first :: rest) currentEpoch).agave_min_version = ""
          · simp [GetMinRequiredVersion, hmiss, hempty, errReturn]
          · simp [GetMinRequiredVersion, hmiss, hempty]
  · intro records epochInfo
    cases records with
    | nil => simp [GetMinRequiredVersion, hmiss, errReturn]
    | cons first rest =>
      simp only [reduceCtorEq, iff_false]
      cases epochInfo with
      | none => simp [GetMinRequiredVersion, hmiss, errReturn]
      | some currentEpoch =>
        by_cases hempty :
          (selectCurrentRecord first (first :: rest) currentEpoch).agave_min_version = ""
        · simp [GetMinRequiredVersion, hmiss, hempty, errReturn]
        · simp [GetMinRequiredVersion, hmiss, hempty]
  · intro first rest currentEpoch
    by_cases hempty :
      (selectCurrentRecord first (first :: rest) currentEpoch).agave_min_version = ""
    · simp [GetMinRequiredVersion, hmiss, hempty, errReturn]
    · simp [GetMinRequiredVersion, hmiss, hempty]
  · intro first rest currentEpoch hne
    simp [GetMinRequiredVersion, hmiss, hne]

/-- C8 witness: at concrete inputs, malformed JSON yields the decode error, an
empty list the no-data error, an empty primary version the missing-field
error, and an empty alternate version is returned as-is. -/
theorem GetMinRequiredVersion_error_taxonomy_witness :
    ((GetMinRequiredVersion CacheTimeout Cache.empty 0 "mainnet-beta"
        (.response none) (some 797)).1.err = some .decodeError)
  ∧ ((GetMinRequiredVersion CacheTimeout Cache.empty 0 "mainnet-beta"
        (.response (some [])) (some 797)).1.err = some .noDataError)
  ∧ ((GetMinRequiredVersion CacheTimeout Cache.empty 0 "mainnet-beta"
        (.response (some [{ record796 with agave_min_version := "" }]))
        (some 797)).1.err = some .missingFieldError)
  ∧ ((GetMinRequiredVersion CacheTimeout Cache.empty 0 "mainnet-beta"
        (.response (some [{ record796 with firedancer_min_version := "" }]))
        (some 797)).1.err = none
     ∧ (GetMinRequiredVersion CacheTimeout Cache.empty 0 "mainnet-beta"
        (.response (some [{ record796 with firedancer_min_version := "" }]))
        (some 797)).1.firedancer = "") := by
  have h := GetMinRequiredVersion_error_taxonomy CacheTimeout Cache.empty 0 "mainnet-beta"
    (by decide)
  refine ⟨(h.1 none (some 797)).mpr rfl, (h.2.1 [] (some 797)).mpr rfl, ?_, ?_⟩
  · exact (h.2.2.1 { record796 with agave_min_version := "" } [] 797).mpr (by decide)
  · have h4 := h.2.2.2 { record796 with firedancer_min_version := "" } [] 797 (by decide)
    exact ⟨h4.1, by rw [h4.2]; decide⟩

/-! ## Claim C10 -/

/-- C10: the cluster value returned is always the cluster the caller passed
in, and cache validity does not depend on that argument: after any successful
resolve for one cluster, a later still-valid call naming any other cluster is
served from the cache and labeled with the newly requested cluster. -/
theorem GetMinRequiredVersion_cluster_passthrough
    (cacheTimeout : Int) (cache : Cache) (now : Int) (cluster : String)
    (outcome : FetchOutcome) (epochInfo : Option Int) :
    ((GetMinRequiredVersion cacheTimeout cache now cluster outcome epochInfo).1.cluster
      = cluster)
  ∧ (∀ r cache1 cluster2 now2 outcome2 epochInfo2,
      GetMinRequiredVersion cacheTimeout cache now cluster outcome epochInfo = (r, cache1) →
      r.err = none →
      cacheValid cache1 now2 cacheTimeout = true →
      (GetMinRequiredVersion cacheTimeout cache1 now2 cluster2 outcome2 epochInfo2).1 =
        { agave := r.agave, cluster := cluster2, epoch := r.epoch,
          firedancer := r.firedancer, err := none }) := by
  constructor
  · by_cases hvalid : cacheValid cache now cacheTimeout
    · simp [GetMinRequiredVersion, hvalid]
    · simp only [Bool.not_eq_true] at hvalid
      cases outcome with
      | requestFailed => simp [GetMinRequiredVersion, hvalid, errReturn]
      | transportFailed => simp [GetMinRequiredVersion, hvalid, errReturn]
      | response d =>
        cases d with
        | none => simp [GetMinRequiredVersion, hvalid, errReturn]
        | some records =>
          cases records with
          | nil => simp [GetMinRequiredVersion, hvalid, errReturn]
          | cons first rest =>
            cases epochInfo with
            | none => simp [GetMinRequiredVersion, hvalid, errReturn]
            | some currentEpoch =>
              by_cases hempty :
                (selectCurrentRecord first (first :: rest) currentEpoch).agave_min_version = ""
              · simp [GetMinRequiredVersion, hvalid, hempty, errReturn]
              · simp [GetMinRequiredVersion, hvalid, hempty]
  · intro r cache1 cluster2 now2 outcome2 epochInfo2 heq hok hvalid1
    obtain ⟨ha, hf, he⟩ := getMin_success_cache cacheTimeout cache now cluster outcome
      epochInfo r cache1 heq hok
    rw [getMin_cacheHit cacheTimeout cache1 now2 cluster2 outcome2 epochInfo2 hvalid1]
    simp [ha, hf, he]

/-- C10 witness: a fetch for `mainnet-beta` populates the cache; a later call
naming `testnet` within the TTL is served those values labeled `testnet`. -/
theorem GetMinRequiredVersion_cluster_passthrough_witness :
    (GetMinRequiredVersion CacheTimeout
        ((GetMinRequiredVersion CacheTimeout Cache.empty 0 "mainnet-beta"
            (.response (some [record796, record797])) (some 797)).2)
        1 "testnet" .transportFailed none).1 =
      { agave := "2.2.15", cluster := "testnet", epoch := 797,
        firedancer := "0.503.20215", err := none } := by
  have h := (GetMinRequiredVersion_cluster_passthrough CacheTimeout Cache.empty 0
      "mainnet-beta" (.response (some [record796, record797])) (some 797)).2
    (GetMinRequiredVersion CacheTimeout Cache.empty 0 "mainnet-beta"
        (.response (some [record796, record797])) (some 797)).1
    (GetMinRequiredVersion CacheTimeout Cache.empty 0 "mainnet-beta"
        (.response (some [record796, record797])) (some 797)).2
    "testnet" 1 .transportFailed none rfl (by decide) (by decide)
  rw [h]
  decide

/-! ## Claim C3 -/

/-- C3: on a cache miss, the next-kind resolve selects the record whose
`epoch` equals `currentEpoch + 1`; if none matches it falls back to the record
whose `epoch` equals the current epoch; if that also fails it falls back to
the first record; and the resolved epoch is always the selected record's own
epoch.  (`GetNextEpochMinRequiredVersion` is modelled from the spec — see its
definition — and agrees with `TestClient_GetNextEpochMinRequiredVersion` and
`pkg/api/mock.go`.) -/
theorem GetNextEpochMinRequiredVersion_selects_next_epoch
    (cacheTimeout : Int) (cache : Cache) (now : Int) (cluster : String)
    (first : AuthorityRecord) (rest : List AuthorityRecord) (currentEpoch : Int)
    (entry : AuthorityRecord)
    (hmiss : cacheValid cache now cacheTimeout = false)
    (hentry : selectNextRecord first (first :: rest) currentEpoch = entry)
    (hversion : entry.agave_min_version ≠ "") :
    (GetNextEpochMinRequiredVersion cacheTimeout cache now cluster
        (.response (some (first :: rest))) (some currentEpoch)).1 =
      { agave := entry.agave_min_version, cluster := cluster, epoch := entry.epoch,
        firedancer := entry.firedancer_min_version, err := none }
    ∧ ((∃ r ∈ first :: rest, r.epoch = currentEpoch + 1) → entry.epoch = currentEpoch + 1)
    ∧ ((∀ r ∈ first :: rest, r.epoch ≠ currentEpoch + 1) →
        (∃ r ∈ first :: rest, r.epoch = currentEpoch) → entry.epoch = currentEpoch)
    ∧ ((∀ r ∈ first :: rest, r.epoch ≠ currentEpoch + 1) →
        (∀ r ∈ first :: rest, r.epoch ≠ currentEpoch) → entry = first) := by
  refine ⟨?_, ?_, ?_, ?_⟩
  · simp [GetNextEpochMinRequiredVersion, hmiss, hentry, hversion]
  · intro hex
    obtain ⟨m, hm, hmt⟩ := epochFind_some_of_mem _ _ hex
    rw [← hentry]
    simp [selectNextRecord, hm, hmt]
  · intro hallnext hexcur
    have hnone := epochFind_none_of_not_mem _ _ hallnext
    obtain ⟨m, hm, hmt⟩ := epochFind_some_of_mem _ _ hexcur
    rw [← hentry]
    simp [selectNextRecord, hnone, hm, hmt]
  · intro hallnext hallcur
    have hnone1 := epochFind_none_of_not_mem _ _ hallnext
    have hnone2 := epochFind_none_of_not_mem _ _ hallcur
    rw [← hentry]
    simp [selectNextRecord, hnone1, hnone2]

/-- C3 witness: with records for epochs 796, 797 and 798 and current
epoch 797, the next-kind resolve returns the epoch-798 record's versions with
resolved epoch 798. -/
theorem GetNextEpochMinRequiredVersion_selects_next_epoch_witness :
    (GetNextEpochMinRequiredVersion CacheTimeout Cache.empty 0 "mainnet-beta"
        (.response (some [record796, record797, record798])) (some 797)).1 =
      { agave := "2.2.16", cluster := "mainnet-beta", epoch := 798,
        firedancer := "0.503.20216", err := none } := by
  have h := GetNextEpochMinRequiredVersion_selects_next_epoch CacheTimeout Cache.empty 0
    "mainnet-beta" record796 [record797, record798] 797 record798
    (by decide) (by decide) (by decide)
  exact h.1

/-! ## Claim C4 -/

/-- C4: with the node version and the cache resolutions in hand, each
compliance evaluator uses the alternate-implementation minimum version when
the flag is set and the primary minimum version otherwise (independently for
the current-kind and next-kind results), and its boolean is true exactly when
`compareVersions` puts the node version below the required one. -/
theorem compliance_requiredVersion_and_comparison
    (isFiredancer : Bool) (version : String) (genesisRes clusterRes : Except String String)
    (r rNext : GoReturn) :
    (∃ s, collectNodeIsOutdated isFiredancer (.ok version) genesisRes clusterRes (.ok r)
        = some s
      ∧ s.requiredVersion = (if isFiredancer then r.firedancer else r.agave)
      ∧ (s.value = true ↔ compareVersions version s.requiredVersion < 0))
  ∧ (∃ s, collectNodeNeedsUpdate isFiredancer (.ok version) genesisRes clusterRes (.ok rNext)
        = some s
      ∧ s.requiredVersion = (if isFiredancer then rNext.firedancer else rNext.agave)
      ∧ (s.value = true ↔ compareVersions version s.requiredVersion < 0)) := by
  constructor
  · refine ⟨_, rfl, rfl, ?_⟩
    simp [collectNodeIsOutdated]
  · refine ⟨_, rfl, rfl, ?_⟩
    simp [collectNodeNeedsUpdate]

/-- C4 witness: node version `0.9.0` against required `1.0.0` is outdated;
node version `2.2.15` against next-epoch required `2.2.16` needs an update. -/
theorem compliance_requiredVersion_and_comparison_witness :
    (∃ s, collectNodeIsOutdated false (.ok "0.9.0") (.ok "hash") (.ok "mainnet-beta")
        (.ok { agave := "1.0.0", cluster := "mainnet-beta", epoch := 797,
               firedancer := "1.0.0", err := none }) = some s ∧ s.value = true)
  ∧ (∃ s, collectNodeNeedsUpdate false (.ok "2.2.15") (.ok "hash") (.ok "mainnet-beta")
        (.ok { agave := "2.2.16", cluster := "mainnet-beta", epoch := 798,
               firedancer := "0.503.20216", err := none }) = some s ∧ s.value = true) := by
  have h := compliance_requiredVersion_and_comparison false "0.9.0" (.ok "hash")
    (.ok "mainnet-beta")
    { agave := "1.0.0", cluster := "mainnet-beta", epoch := 797,
      firedancer := "1.0.0", err := none }
    { agave := "2.2.16", cluster := "mainnet-beta", epoch := 798,
      firedancer := "0.503.20216", err := none }
  have h2 := compliance_requiredVersion_and_comparison false "2.2.15" (.ok "hash")
    (.ok "mainnet-beta")
    { agave := "1.0.0", cluster := "mainnet-beta", epoch := 797,
      firedancer := "1.0.0", err := none }
    { agave := "2.2.16", cluster := "mainnet-beta", epoch := 798,
      firedancer := "0.503.20216", err := none }
  constructor
  · obtain ⟨s, hs, hreq, hval⟩ := h.1
    exact ⟨s, hs, hval.mpr (by rw [hreq]; decide)⟩
  · obtain ⟨s, hs, hreq, hval⟩ := h2.2
    exact ⟨s, hs, hval.mpr (by rw [hreq]; decide)⟩

/-! ## Claim C2: characterizing the comparison loop -/

/-- The comparison loop returns `0` on an all-ties list and otherwise the sign
of the first position whose two values differ. -/
theorem cmpVals_spec (l : List (Int × Int)) :
    (cmpVals l = 0 ∧ ∀ i, (l.getD i (0, 0)).1 = (l.getD i (0, 0)).2) ∨
    (∃ i, cmpVals l = (if (l.getD i (0, 0)).1 < (l.getD i (0, 0)).2 then -1 else 1)
      ∧ (l.getD i (0, 0)).1 ≠ (l.getD i (0, 0)).2
      ∧ ∀ j < i, (l.getD j (0, 0)).1 = (l.getD j (0, 0)).2) := by
  induction l with
  | nil => left; simp [cmpVals]
  | cons p rest ih =>
    obtain ⟨x, y⟩ := p
    by_cases hxy : x < y
    · right
      refine ⟨0, ?_, ?_, ?_⟩
      · simp [cmpVals, hxy]
      · simp; omega
      · intro j hj; exact absurd hj (Nat.not_lt_zero j)
    · by_cases hyx : y < x
      · right
        refine ⟨0, ?_, ?_, ?_⟩
        · simp [cmpVals, hxy, hyx]
        · simp; omega
        · intro j hj; exact absurd hj (Nat.not_lt_zero j)
      · have hxyeq : x = y := by omega
        rcases ih with ⟨h0, hall⟩ | ⟨i, h1, h2, h3⟩
        · left
          refine ⟨by simp [cmpVals, hxy, hyx, h0], ?_⟩
          intro i
          cases i with
          | zero => simpa using hxyeq
          | succ n => simpa using hall n
        · right
          refine ⟨i + 1, ?_, ?_, ?_⟩
          · simpa [cmpVals, hxy, hyx] using h1
          · simpa using h2
          · intro j hj
            cases j with
            | zero => simpa using hxyeq
            | succ n => simpa using h3 n (by omega)

theorem cmpVals_eq_zero_iff (l : List (Int × Int)) :
    cmpVals l = 0 ↔ ∀ i, (l.getD i (0, 0)).1 = (l.getD i (0, 0)).2 := by
  constructor
  · intro h
    rcases cmpVals_spec l with ⟨_, hall⟩ | ⟨i, h1, h2, _⟩
    · exact hall
    · rw [h] at h1
      by_cases hlt : (l.getD i (0, 0)).1 < (l.getD i (0, 0)).2
      · rw [if_pos hlt] at h1; exact absurd h1 (by decide)
      · rw [if_neg hlt] at h1; exact absurd h1 (by decide)
  · intro hall
    rcases cmpVals_spec l with ⟨h0, _⟩ | ⟨i, _, h2, _⟩
    · exact h0
    · exact absurd (hall i) h2

theorem cmpVals_eq_neg_one_iff (l : List (Int × Int)) :
    cmpVals l = -1 ↔ ∃ i, (l.getD i (0, 0)).1 < (l.getD i (0, 0)).2
      ∧ ∀ j < i, (l.getD j (0, 0)).1 = (l.getD j (0, 0)).2 := by
  constructor
  · intro h
    rcases cmpVals_spec l with ⟨h0, _⟩ | ⟨i, h1, h2, h3⟩
    · rw [h0] at h; exact absurd h (by decide)
    · rw [h] at h1
      by_cases hlt : (l.getD i (0, 0)).1 < (l.getD i (0, 0)).2
      · exact ⟨i, hlt, h3⟩
      · rw [if_neg hlt] at h1; exact absurd h1 (by decide)
  · rintro ⟨i, hi, hall⟩
    rcases cmpVals_spec l with ⟨_, hall2⟩ | ⟨i2, h1, h2, h3⟩
    · have := hall2 i; omega
    · have hii : i = i2 := by
        by_contra hne
        rcases Nat.lt_or_ge i i2 with hlt | hge
        · have := h3 i hlt; omega
        · have hlt2 : i2 < i := by omega
          exact absurd (hall i2 hlt2) h2
      subst hii
      rw [h1, if_pos hi]

theorem cmpVals_eq_one_iff (l : List (Int × Int)) :
    cmpVals l = 1 ↔ ∃ i, (l.getD i (0, 0)).2 < (l.getD i (0, 0)).1
      ∧ ∀ j < i, (l.getD j (0, 0)).1 = (l.getD j (0, 0)).2 := by
  constructor
  · intro h
    rcases cmpVals_spec l with ⟨h0, _⟩ | ⟨i, h1, h2, h3⟩
    · rw [h0] at h; exact absurd h (by decide)
    · rw [h] at h1
      by_cases hlt : (l.getD i (0, 0)).1 < (l.getD i (0, 0)).2
      · rw [if_pos hlt] at h1; exact absurd h1 (by decide)
      · exact ⟨i, by omega, h3⟩
  · rintro ⟨i, hi, hall⟩
    rcases cmpVals_spec l with ⟨_, hall2⟩ | ⟨i2, h1, h2, h3⟩
    · have := hall2 i; omega
    · have hii : i = i2 := by
        by_contra hne
        rcases Nat.lt_or_ge i i2 with hlt | hge
        · have := h3 i hlt; omega
        · have hlt2 : i2 < i := by omega
          exact absurd (hall i2 hlt2) h2
      subst hii
      rw [h1, if_neg (by omega)]

theorem cmpVals_trichotomy (l : List (Int × Int)) :
    cmpVals l = -1 ∨ cmpVals l = 0 ∨ cmpVals l = 1 := by
  induction l with
  | nil => simp [cmpVals]
  | cons p rest ih =>
    obtain ⟨x, y⟩ := p
    by_cases hxy : x < y
    · left; simp [cmpVals, hxy]
    · by_cases hyx : y < x
      · right; right; simp [cmpVals, hxy, hyx]
      · simpa [cmpVals, hxy, hyx] using ih

/-- Position `i` of the padded value sequence is the parse of component `i`,
with a missing component read as the empty component (parsing to `0`). -/
theorem padZipVals_getD (f : List Char → Int) (hf : f [] = 0)
    (as bs : List (List Char)) (i : Nat) :
    (padZipVals f as bs).getD i (0, 0) = (f (as.getD i []), f (bs.getD i [])) := by
  induction as generalizing bs i with
  | nil =>
    induction bs generalizing i with
    | nil => simp [padZipVals, hf]
    | cons b bs ihb =>
      cases i with
      | zero => simp [padZipVals, hf]
      | succ n => simpa [padZipVals] using ihb n
  | cons a as iha =>
    cases bs with
    | nil =>
      cases i with
      | zero => simp [padZipVals, hf]
      | succ n => simpa [padZipVals] using iha [] n
    | cons b bs =>
      cases i with
      | zero => simp [padZipVals]
      | succ n => simpa [padZipVals] using iha bs n

/-- C2 counterexample: on components beyond the 64-bit signed range,
`compareVersions` saturates both values (Go `strconv.Atoi` with its error
ignored) and reports equality, while the claim's reading — each component
parsed as an integer — requires `less`. -/
theorem compareVersions_saturation_counterexample :
    compareVersions "9223372036854775808" "9223372036854775809" = 0
  ∧ compareVersionsByClaim "9223372036854775808" "9223372036854775809" = -1 := by
  constructor
  · decide
  · decide

/-- C2 (amended): `compareVersions` splits on `.`, parses each component with
`strconv.Atoi` ignoring its error — non-numeric or missing components count
as `0` and numeric components saturate at the 64-bit signed bounds — and
returns the result of the first position with a numeric difference, `equal`
when every position ties; the claim's four concrete examples hold. -/
theorem compareVersions_first_numeric_difference (a b : String) :
    (compareVersions a b = -1 ∨ compareVersions a b = 0 ∨ compareVersions a b = 1)
  ∧ (compareVersions a b = 0 ↔
      ∀ i, atoiVal ((splitOnDot a.data).getD i []) = atoiVal ((splitOnDot b.data).getD i []))
  ∧ (compareVersions a b = -1 ↔
      ∃ i, atoiVal ((splitOnDot a.data).getD i []) < atoiVal ((splitOnDot b.data).getD i [])
        ∧ ∀ j < i,
            atoiVal ((splitOnDot a.data).getD j []) = atoiVal ((splitOnDot b.data).getD j []))
  ∧ (compareVersions a b = 1 ↔
      ∃ i, atoiVal ((splitOnDot b.data).getD i []) < atoiVal ((splitOnDot a.data).getD i [])
        ∧ ∀ j < i,
            atoiVal ((splitOnDot a.data).getD j []) = atoiVal ((splitOnDot b.data).getD j []))
  ∧ compareVersions "2.2.15" "2.2.14" = 1
  ∧ compareVersions "1.0.0" "1.0.0" = 0
  ∧ compareVersions "1.2" "1.2.0" = 0
  ∧ compareVersions "1.10.0" "1.9.9" = 1 := by
  have hf : atoiVal [] = 0 := by decide
  have hpad := padZipVals_getD atoiVal hf (splitOnDot a.data) (splitOnDot b.data)
  refine ⟨cmpVals_trichotomy _, ?_, ?_, ?_, by decide, by decide, by decide, by decide⟩
  · rw [compareVersions, cmpVals_eq_zero_iff]
    constructor
    · intro h i; have := h i; rw [hpad i] at this; exact this
    · intro h i; rw [hpad i]; exact h i
  · rw [compareVersions, cmpVals_eq_neg_one_iff]
    constructor
    · rintro ⟨i, hi, hall⟩
      rw [hpad i] at hi
      exact ⟨i, hi, fun j hj => by have := hall j hj; rwa [hpad j] at this⟩
    · rintro ⟨i, hi, hall⟩
      refine ⟨i, by rw [hpad i]; exact hi, fun j hj => by rw [hpad j]; exact hall j hj⟩
  · rw [compareVersions, cmpVals_eq_one_iff]
    constructor
    · rintro ⟨i, hi, hall⟩
      rw [hpad i] at hi
      exact ⟨i, hi, fun j hj => by have := hall j hj; rwa [hpad j] at this⟩
    · rintro ⟨i, hi, hall⟩
      refine ⟨i, by rw [hpad i]; exact hi, fun j hj => by rw [hpad j]; exact hall j hj⟩

/-! ## Claim C5 -/

/-- C5: every pass is the concatenation of each step's own emissions in the
fixed order — a failing step never suppresses a later one — and on failure a
descriptor-bound step emits exactly its invalid-sample markers carrying its
error, while the two compliance-boolean steps emit nothing at all. -/
theorem Collect_failure_isolation (config : ExporterConfig) (isFiredancer0 : Bool)
    (i : PassInputs) :
    ((Collect config isFiredancer0 i).1 =
        collectHealth i.isHealthyRes i.slotsBehindRes
        ++ collectMinimumLedgerSlot i.minLedgerRes
        ++ collectFirstAvailableBlock i.firstBlockRes
        ++ collectVoteAccounts config i.voteRes
        ++ collectVersionInline i.versionRes i.fdProbeOk
        ++ collectIdentity config i.identityRes
        ++ collectBalances config i.balancesRes
        ++ collectFoundationMinVersion i.genesisRes i.clusterRes i.minVerRes
        ++ complianceEmissions "solana_node_is_outdated"
            (collectNodeIsOutdated (Collect config isFiredancer0 i).2 i.outdatedVersionRes
              i.outdatedGenesisRes i.outdatedClusterRes i.outdatedMinVerRes)
        ++ complianceEmissions "solana_node_needs_update"
            (collectNodeNeedsUpdate (Collect config isFiredancer0 i).2 i.needsVersionRes
              i.needsGenesisRes i.needsClusterRes i.needsNextVerRes))
  ∧ (∀ e1 e2, i.isHealthyRes = .error e1 → i.slotsBehindRes = .error e2 →
      collectHealth i.isHealthyRes i.slotsBehindRes =
        [.invalid "solana_node_is_healthy" e1, .invalid "solana_node_num_slots_behind" e2])
  ∧ (∀ e, i.minLedgerRes = .error e →
      collectMinimumLedgerSlot i.minLedgerRes = [.invalid "solana_node_minimum_ledger_slot" e])
  ∧ (∀ e, i.firstBlockRes = .error e →
      collectFirstAvailableBlock i.firstBlockRes =
        [.invalid "solana_node_first_available_block" e])
  ∧ (∀ e, config.lightMode = false → i.voteRes = .error e →
      collectVoteAccounts config i.voteRes =
        [.invalid "solana_validator_active_stake" e,
         .invalid "solana_cluster_active_stake" e,
         .invalid "solana_validator_last_vote" e,
         .invalid "solana_cluster_last_vote" e,
         .invalid "solana_validator_root_slot" e,
         .invalid "solana_cluster_root_slot" e,
         .invalid "solana_validator_delinquent" e,
         .invalid "solana_cluster_validator_count" e])
  ∧ (∀ e, i.versionRes = .error e →
      collectVersionInline i.versionRes i.fdProbeOk = [.invalid "solana_node_version" e])
  ∧ (∀ e, i.identityRes = .error e →
      collectIdentity config i.identityRes = [.invalid "solana_node_identity" e])
  ∧ (∀ e, config.lightMode = false → i.balancesRes = .error e →
      collectBalances config i.balancesRes = [.invalid "solana_account_balance" e])
  ∧ (∀ e, i.genesisRes = .error e →
      collectFoundationMinVersion i.genesisRes i.clusterRes i.minVerRes =
        [.invalid "solana_foundation_min_required_version" e])
  ∧ (∀ g e, i.genesisRes = .ok g → i.clusterRes = .error e →
      collectFoundationMinVersion i.genesisRes i.clusterRes i.minVerRes =
        [.invalid "solana_foundation_min_required_version" e])
  ∧ (∀ g c e, i.genesisRes = .ok g → i.clusterRes = .ok c → i.minVerRes = .error e →
      collectFoundationMinVersion i.genesisRes i.clusterRes i.minVerRes =
        [.invalid "solana_foundation_min_required_version" e])
  ∧ (∀ fd e, i.outdatedVersionRes = .error e →
      complianceEmissions "solana_node_is_outdated"
        (collectNodeIsOutdated fd i.outdatedVersionRes i.outdatedGenesisRes
          i.outdatedClusterRes i.outdatedMinVerRes) = [])
  ∧ (∀ fd e, i.outdatedMinVerRes = .error e →
      complianceEmissions "solana_node_is_outdated"
        (collectNodeIsOutdated fd i.outdatedVersionRes i.outdatedGenesisRes
          i.outdatedClusterRes i.outdatedMinVerRes) = [])
  ∧ (∀ fd e, i.needsVersionRes = .error e →
      complianceEmissions "solana_node_needs_update"
        (collectNodeNeedsUpdate fd i.needsVersionRes i.needsGenesisRes
          i.needsClusterRes i.needsNextVerRes) = [])
  ∧ (∀ fd e, i.needsNextVerRes = .error e →
      complianceEmissions "solana_node_needs_update"
        (collectNodeNeedsUpdate fd i.needsVersionRes i.needsGenesisRes
          i.needsClusterRes i.needsNextVerRes) = []) := by
  refine ⟨rfl, ?_, ?_, ?_, ?_, ?_, ?_, ?_, ?_, ?_, ?_, ?_, ?_, ?_, ?_⟩
  · intro e1 e2 h1 h2; simp [collectHealth, h1, h2]
  · intro e h; simp [collectMinimumLedgerSlot, h]
  · intro e h; simp [collectFirstAvailableBlock, h]
  · intro e hlight h; simp [collectVoteAccounts, hlight, h]
  · intro e h; simp [collectVersionInline, h]
  · intro e h; simp [collectIdentity, h]
  · intro e hlight h; simp [collectBalances, hlight, h]
  · intro e h; simp [collectFoundationMinVersion, h]
  · intro g e h1 h2; simp [collectFoundationMinVersion, h1, h2]
  · intro g c e h1 h2 h3; simp [collectFoundationMinVersion, h1, h2, h3]
  · intro fd e h; simp [complianceEmissions, collectNodeIsOutdated, h]
  · intro fd e h
    cases hv : i.outdatedVersionRes with
    | error e2 => simp [complianceEmissions, collectNodeIsOutdated, hv]
    | ok v => simp [complianceEmissions, collectNodeIsOutdated, hv, h]
  · intro fd e h; simp [complianceEmissions, collectNodeNeedsUpdate, h]
  · intro fd e h
    cases hv : i.needsVersionRes with
    | error e2 => simp [complianceEmissions, collectNodeNeedsUpdate, hv]
    | ok v => simp [complianceEmissions, collectNodeNeedsUpdate, hv, h]

/-- A plain configuration for concrete pass evaluations: no light mode, no
tracked keys, no active identity. -/
def configPlain : ExporterConfig :=
  { lightMode := false, nodeKeys := [], comprehensiveVoteAccountTracking := false,
    activeIdentity := "" }

/-- A pass in which every RPC/API call fails. -/
def passAllFail : PassInputs :=
  { isHealthyRes := .error "e1", slotsBehindRes := .error "e2", minLedgerRes := .error "e3",
    firstBlockRes := .error "e4", voteRes := .error "e5", versionRes := .error "e6",
    fdProbeOk := false, identityRes := .error "e7", balancesRes := .error "e8",
    genesisRes := .error "e9", clusterRes := .error "e10", minVerRes := .error "e11",
    outdatedVersionRes := .error "e12", outdatedGenesisRes := .error "e13",
    outdatedClusterRes := .error "e14", outdatedMinVerRes := .error "e15",
    needsVersionRes := .error "e16", needsGenesisRes := .error "e17",
    needsClusterRes := .error "e18", needsNextVerRes := .error "e19" }

/-- C5 witness: in a pass where every call fails, every descriptor-bound step
still contributes exactly its invalid markers in the fixed order, and the two
compliance steps contribute nothing. -/
theorem Collect_failure_isolation_witness :
    (Collect configPlain false passAllFail).1 =
      [.invalid "solana_node_is_healthy" "e1", .invalid "solana_node_num_slots_behind" "e2",
       .invalid "solana_node_minimum_ledger_slot" "e3",
       .invalid "solana_node_first_available_block" "e4",
       .invalid "solana_validator_active_stake" "e5",
       .invalid "solana_cluster_active_stake" "e5",
       .invalid "solana_validator_last_vote" "e5",
       .invalid "solana_cluster_last_vote" "e5",
       .invalid "solana_validator_root_slot" "e5",
       .invalid "solana_cluster_root_slot" "e5",
       .invalid "solana_validator_delinquent" "e5",
       .invalid "solana_cluster_validator_count" "e5",
       .invalid "solana_node_version" "e6",
       .invalid "solana_node_identity" "e7",
       .invalid "solana_account_balance" "e8",
       .invalid "solana_foundation_min_required_version" "e9"] := by
  have h := Collect_failure_isolation configPlain false passAllFail
  rw [h.1,
    h.2.1 "e1" "e2" rfl rfl,
    h.2.2.1 "e3" rfl,
    h.2.2.2.1 "e4" rfl,
    h.2.2.2.2.1 "e5" rfl rfl,
    h.2.2.2.2.2.1 "e6" rfl,
    h.2.2.2.2.2.2.1 "e7" rfl,
    h.2.2.2.2.2.2.2.1 "e8" rfl rfl,
    h.2.2.2.2.2.2.2.2.1 "e9" rfl,
    h.2.2.2.2.2.2.2.2.2.2.2.1 (Collect configPlain false passAllFail).2 "e12" rfl,
    h.2.2.2.2.2.2.2.2.2.2.2.2.2.1 (Collect configPlain false passAllFail).2 "e16" rfl]
  rfl

/-! ## Claim C9 -/

/-- Whether an RPC outcome succeeded. -/
def exceptIsOk (r : Except String String) : Bool :=
  match r with
  | .ok _ => true
  | .error _ => false

/-- A pass whose `GetVersion` succeeds and whose firedancer probe returns
status 200. -/
def passProbeOk : PassInputs :=
  { isHealthyRes := .ok true, slotsBehindRes := .ok 0, minLedgerRes := .ok 0,
    firstBlockRes := .ok 0, voteRes := .ok { current := [], delinquent := [] },
    versionRes := .ok "0.9.0", fdProbeOk := true, identityRes := .ok "id",
    balancesRes := .ok [], genesisRes := .ok "hash", clusterRes := .ok "mainnet-beta",
    minVerRes := .ok { agave := "1.0.0", cluster := "mainnet-beta", epoch := 797,
                       firedancer := "0.9.5", err := none },
    outdatedVersionRes := .ok "0.9.0", outdatedGenesisRes := .ok "hash",
    outdatedClusterRes := .ok "mainnet-beta",
    outdatedMinVerRes := .ok { agave := "1.0.0", cluster := "mainnet-beta", epoch := 797,
                               firedancer := "0.9.5", err := none },
    needsVersionRes := .ok "0.9.0", needsGenesisRes := .ok "hash",
    needsClusterRes := .ok "mainnet-beta",
    needsNextVerRes := .ok { agave := "1.0.0", cluster := "mainnet-beta", epoch := 798,
                             firedancer := "0.9.5", err := none } }

/-- The same pass except that the firedancer probe does not succeed. -/
def passProbeFail : PassInputs :=
  { passProbeOk with fdProbeOk := false }

/-- C9 counterexample: the flag is not per-pass state.  A first pass whose
probe succeeds sets the collector field to `true`; in a following pass whose
probe does not succeed, the compliance step still observes the flag as set —
its emitted sample is labeled `is_firedancer = "1"` and evaluated against the
alternate-implementation required version — where the claim requires the flag
to be observed as unset. -/
theorem Collect_isFiredancer_not_per_pass :
    (Collect configPlain false passProbeOk).2 = true
  ∧ passProbeFail.fdProbeOk = false
  ∧ Emission.sample "solana_node_is_outdated"
      ["1", "0.9.0", "0.9.5", "mainnet-beta", "797"]
      ∈ (Collect configPlain (Collect configPlain false passProbeOk).2 passProbeFail).1 := by
  refine ⟨rfl, rfl, ?_⟩
  decide

/-- C9 (amended): the alternate-implementation flag is persistent collector
state, not per-pass: the variant-detection step leaves it `true` exactly when
it was already `true` at pass start or this pass's version call and probe both
succeeded — in particular it is never reset — and the two compliance steps of
the pass observe exactly that updated value. -/
theorem Collect_isFiredancer_sticky (config : ExporterConfig) (isFiredancer0 : Bool)
    (i : PassInputs) :
    ((Collect config isFiredancer0 i).2
        = (isFiredancer0 || (exceptIsOk i.versionRes && i.fdProbeOk)))
  ∧ (isFiredancer0 = true → (Collect config isFiredancer0 i).2 = true)
  ∧ (∃ precedingEmissions, (Collect config isFiredancer0 i).1 =
      precedingEmissions
      ++ complianceEmissions "solana_node_is_outdated"
          (collectNodeIsOutdated (Collect config isFiredancer0 i).2 i.outdatedVersionRes
            i.outdatedGenesisRes i.outdatedClusterRes i.outdatedMinVerRes)
      ++ complianceEmissions "solana_node_needs_update"
          (collectNodeNeedsUpdate (Collect config isFiredancer0 i).2 i.needsVersionRes
            i.needsGenesisRes i.needsClusterRes i.needsNextVerRes)) := by
  refine ⟨?_, ?_, ?_⟩
  · show updatedIsFiredancer isFiredancer0 i.versionRes i.fdProbeOk = _
    cases hv : i.versionRes with
    | error e => simp [updatedIsFiredancer, exceptIsOk, hv]
    | ok v =>
      cases i.fdProbeOk <;> cases isFiredancer0 <;> simp [updatedIsFiredancer, exceptIsOk, hv]
  · intro h0
    subst h0
    show updatedIsFiredancer true i.versionRes i.fdProbeOk = true
    cases hv : i.versionRes with
    | error e => simp [updatedIsFiredancer, hv]
    | ok v => cases i.fdProbeOk <;> simp [updatedIsFiredancer, hv]
  · refine ⟨collectHealth i.isHealthyRes i.slotsBehindRes
      ++ collectMinimumLedgerSlot i.minLedgerRes
      ++ collectFirstAvailableBlock i.firstBlockRes
      ++ collectVoteAccounts config i.voteRes
      ++ collectVersionInline i.versionRes i.fdProbeOk
      ++ collectIdentity config i.identityRes
      ++ collectBalances config i.balancesRes
      ++ collectFoundationMinVersion i.genesisRes i.clusterRes i.minVerRes, ?_⟩
    simp [Collect]

/-- C9 amended-theorem witness: at the concrete second pass above, the flag at
pass end is `true` (it was `true` at pass start even though the probe failed),
as the stickiness theorem states. -/
theorem Collect_isFiredancer_sticky_witness :
    (Collect configPlain true passProbeFail).2 = true :=
  (Collect_isFiredancer_sticky configPlain true passProbeFail).2.1 rfl
